import Mathlib

/-!
Verification of the background job orchestration subsystem of the Jobly
repository: the job queue service (`apps/api/app/services/job_service.py`),
the worker poll loop (`apps/worker/worker.py`), and the SSE event bus
(`apps/api/app/services/sse_service.py`), shallowly embedded in Lean.

The document store (a MongoDB collection of job documents) is modelled as a
`List Job`; MongoDB's atomic `find_one_and_update` with a filter, an update
and an ascending `created_at` sort is modelled as selecting the matching
document with minimal `created_at` (first in list order on ties) and
rewriting it in place.  Timestamps are natural numbers (seconds); document
ids are natural numbers.
-/

namespace Jobly

/-- Job status enumeration, from `JobStatus` in `app/schemas/job_queue.py`. -/
inductive JobStatus where
  | queued
  | running
  | succeeded
  | failed
deriving DecidableEq, Repr

/-- Job type enumeration, from `JobType` in `app/schemas/job_queue.py`. -/
inductive JobType where
  | job_ingestion
  | match_recompute
  | packet_generation
  | interview_generation
deriving DecidableEq, Repr

/-- String value of a job type (the str-enum value used in messages). -/
def JobType.val : JobType → String
  | .job_ingestion => "job_ingestion"
  | .match_recompute => "match_recompute"
  | .packet_generation => "packet_generation"
  | .interview_generation => "interview_generation"

/-- A background job document, from `BackgroundJob` / `BackgroundJobInDB` in
`app/schemas/job_queue.py`.  `result` and `resourceRefs` payloads are kept
opaque as strings; `progress` is an `Int` because the store itself accepts
any integer (the 0..100 bound is enforced only by the pydantic model
constructed from a returned document, not by the store). -/
structure Job where
  id : Nat
  userId : Option String
  jobType : JobType
  status : JobStatus
  progress : Int
  message : Option String
  error : Option String
  resourceRefs : Option String
  createdAt : Nat
  startedAt : Option Nat
  finishedAt : Option Nat
  workerId : Option String
  lockExpiresAt : Option Nat
  result : Option String
deriving DecidableEq, Repr

/-- Job lock duration in seconds, `JobService.LOCK_DURATION`. -/
def LOCK_DURATION : Nat := 300

/-- The `acquire_job` eligibility filter:
`{"$or": [{"status": queued}, {"status": running, "lock_expires_at": {"$lt": now}}]}`.
A missing/null `lock_expires_at` does not satisfy a `$lt` date comparison. -/
def eligible (now : Nat) (j : Job) : Bool :=
  j.status = JobStatus.queued ||
    (j.status = JobStatus.running &&
      match j.lockExpiresAt with
      | some t => decide (t < now)
      | none => false)

/-- The first document of minimal `created_at` satisfying `eligible now`,
modelling `find_one_and_update(filter, ..., sort=[("created_at", 1)])`
choosing which single document to modify. -/
def bestEligible (now : Nat) : List Job → Option Job
  | [] => none
  | j :: rest =>
    match bestEligible now rest with
    | none => if eligible now j then some j else none
    | some b =>
      if eligible now j ∧ j.createdAt ≤ b.createdAt then some j else some b

/-- Rewrite the document(s) with the given id in place (the single-document
`$set` of `find_one_and_update`; job ids are unique in a real collection). -/
def setJob (store : List Job) (jid : Nat) (f : Job → Job) : List Job :=
  store.map fun j => if j.id = jid then f j else j

/-- The `$set` applied by `acquire_job`: `status=running`,
`worker_id=worker_id`, `lock_expires_at=now+LOCK_DURATION`, `started_at=now`. -/
def claimUpdate (workerId : String) (now : Nat) (j : Job) : Job :=
  { j with
    status := JobStatus.running
    workerId := some workerId
    lockExpiresAt := some (now + LOCK_DURATION)
    startedAt := some now }

/-- `JobService.acquire_job(worker_id)`: atomically selects the oldest
eligible job, applies `claimUpdate`, and returns the updated document
(`return_document=True`), or `none` when no document matches. -/
def acquire_job (store : List Job) (workerId : String) (now : Nat) :
    Option Job × List Job :=
  match bestEligible now store with
  | none => (none, store)
  | some j =>
    (some (claimUpdate workerId now j), setJob store j.id (claimUpdate workerId now))

/-- The `$set` applied by `update_progress`: sets `progress`, and `message`
only when one is supplied. -/
def progressUpdate (p : Int) (msg : Option String) (j : Job) : Job :=
  { j with
    progress := p
    message := match msg with | some m => some m | none => j.message }

/-- `JobService.update_progress(job_id, progress, message?)`.  The store
write (`find_one_and_update` by `_id` alone) happens first; the returned
document is then validated by the pydantic `BackgroundJobInDB` model, whose
`progress` field carries `ge=0, le=100` — an out-of-range value raises a
validation error AFTER the store has been mutated (the model construction is
outside the `try`).  `Except.error ()` is that raised validation error;
`Except.ok none` is the not-found (or swallowed storage error) result. -/
def update_progress (store : List Job) (jid : Nat) (p : Int) (msg : Option String) :
    Except Unit (Option Job) × List Job :=
  if (store.find? fun j => j.id = jid).isSome then
    let s1 := setJob store jid (progressUpdate p msg)
    match s1.find? fun j => j.id = jid with
    | some j1 =>
      if 0 ≤ p ∧ p ≤ 100 then (Except.ok (some j1), s1) else (Except.error (), s1)
    | none => (Except.ok none, s1)
  else (Except.ok none, store)

/-- The `$set` applied by `complete_job`: `status=succeeded`, `progress=100`,
`finished_at=now`, `worker_id=None`, `lock_expires_at=None`, plus `result`
and `resource_refs` when supplied. -/
def completeUpdate (result resourceRefs : Option String) (now : Nat) (j : Job) : Job :=
  { j with
    status := JobStatus.succeeded
    progress := 100
    finishedAt := some now
    workerId := none
    lockExpiresAt := none
    result := match result with | some r => some r | none => j.result
    resourceRefs := match resourceRefs with | some r => some r | none => j.resourceRefs }

/-- `JobService.complete_job(job_id, result?, resource_refs?)`: an
unconditional `find_one_and_update` filtered by `_id` alone — no status
guard and no ownership check. -/
def complete_job (store : List Job) (jid : Nat) (result resourceRefs : Option String)
    (now : Nat) : Option Job × List Job :=
  if (store.find? fun j => j.id = jid).isSome then
    let s1 := setJob store jid (completeUpdate result resourceRefs now)
    (s1.find? fun j => j.id = jid, s1)
  else (none, store)

/-- The `$set` applied by `fail_job`: `status=failed`, `error=error`,
`finished_at=now`, `worker_id=None`, `lock_expires_at=None`.  It does not
touch `progress`. -/
def failUpdate (error : String) (now : Nat) (j : Job) : Job :=
  { j with
    status := JobStatus.failed
    error := some error
    finishedAt := some now
    workerId := none
    lockExpiresAt := none }

/-- `JobService.fail_job(job_id, error)`: an unconditional
`find_one_and_update` filtered by `_id` alone — no status guard and no
ownership check. -/
def fail_job (store : List Job) (jid : Nat) (error : String) (now : Nat) :
    Option Job × List Job :=
  if (store.find? fun j => j.id = jid).isSome then
    let s1 := setJob store jid (failUpdate error now)
    (s1.find? fun j => j.id = jid, s1)
  else (none, store)

/-- `JobService.renew_lock(job_id, worker_id)`: `find_one_and_update`
filtered by `_id`, `worker_id` AND `status == running`; extends
`lock_expires_at` to `now + LOCK_DURATION`.  A worker that no longer owns
the job matches nothing and gets `none` back, with the store unchanged. -/
def renew_lock (store : List Job) (jid : Nat) (workerId : String) (now : Nat) :
    Option Job × List Job :=
  let ownerFilter := fun j =>
    j.id = jid && j.workerId = some workerId && j.status = JobStatus.running
  if (store.find? ownerFilter).isSome then
    let s1 := store.map fun j =>
      if ownerFilter j then { j with lockExpiresAt := some (now + LOCK_DURATION) } else j
    (s1.find? fun j => j.id = jid, s1)
  else (none, store)

/-- `JobService.create_job(job_type, ...)`: inserts a fresh document with
`status=queued`, `progress=0` and default fields. -/
def create_job (store : List Job) (jobType : JobType) (newId now : Nat) :
    Job × List Job :=
  let j : Job :=
    { id := newId, userId := none, jobType := jobType
      status := JobStatus.queued, progress := 0
      message := none, error := none, resourceRefs := none, createdAt := now
      startedAt := none, finishedAt := none, workerId := none
      lockExpiresAt := none, result := none }
  (j, store ++ [j])

/-- SSE event type enumeration, from `EventType` in `app/schemas/sse.py`. -/
inductive EventType where
  | job_created
  | job_progress
  | job_completed
  | job_failed
  | application_status_change
deriving DecidableEq, Repr

/-- An SSE event, from `SSEEvent` in `app/schemas/sse.py`; the `data` dict is
abstracted to the fields the worker loop actually sends about a job. -/
structure SSEEvent where
  eventType : EventType
  jobId : Nat
  error : Option String
  userId : Option String
deriving DecidableEq, Repr

/-! ### Worker loop (`apps/worker/worker.py`) -/

/-- The outcome of running a registered handler coroutine on a job:
either a result dict (abstracted to its `result`, `resource_refs` and
`message` entries) or a raised exception carrying its string description. -/
inductive ExecOutcome where
  | success (result resourceRefs message : Option String)
  | raises (err : String)
deriving DecidableEq, Repr

/-- The error message of the `ValueError` raised by `poll_and_execute` when
`self.handlers.get(job.type)` finds no handler. -/
def noHandlerMsg (t : JobType) : String :=
  "No handler for job type " ++ t.val

/-- The executor dispatch inside the inner `try` of
`Worker.poll_and_execute`: handler lookup by job type (a missing handler
raises `ValueError`), then the handler itself, whose own exception also
propagates to the same inner `except` as the string `str(e)`. -/
def run_executor (handlers : JobType → Option (Job → ExecOutcome)) (j : Job) :
    Except String (Option String × Option String × Option String) :=
  match handlers j.jobType with
  | none => Except.error (noHandlerMsg j.jobType)
  | some h =>
    match h j with
    | ExecOutcome.success r rr m => Except.ok (r, rr, m)
    | ExecOutcome.raises e => Except.error e

/-- The body of one `Worker.poll_and_execute` iteration (everything inside
the outer `try`), returning the document store and the list of emitted SSE
events.  An `Except.error` value would be an exception escaping to the outer
`except Exception` handler; the inner `try`/`except` around executor work
converts every executor or lookup exception into `fail_job` plus a
`job.failed` event, so no such exception ever reaches this level. -/
def poll_body (handlers : JobType → Option (Job → ExecOutcome))
    (store : List Job) (events : List SSEEvent) (workerId : String) (now : Nat) :
    Except String (List Job × List SSEEvent) :=
  match acquire_job store workerId now with
  | (none, s) => Except.ok (s, events)
  | (some j, s) =>
    let ev0 := events ++
      [{ eventType := EventType.job_progress, jobId := j.id, error := none
         userId := j.userId }]
    match run_executor handlers j with
    | Except.ok (r, rr, _) =>
      let s2 := (complete_job s j.id r rr now).2
      Except.ok (s2, ev0 ++
        [{ eventType := EventType.job_completed, jobId := j.id, error := none
           userId := j.userId }])
    | Except.error e =>
      let s2 := (fail_job s j.id e now).2
      Except.ok (s2, ev0 ++
        [{ eventType := EventType.job_failed, jobId := j.id, error := some e
           userId := j.userId }])

/-- `Worker.poll_and_execute`: the outer `except Exception` keeps any escaped
exception from crashing the poll loop, leaving store and events as they
were at the raise point (here: unreachable, since `poll_body` never errors). -/
def poll_and_execute (handlers : JobType → Option (Job → ExecOutcome))
    (store : List Job) (events : List SSEEvent) (workerId : String) (now : Nat) :
    List Job × List SSEEvent :=
  match poll_body handlers store events workerId now with
  | Except.ok r => r
  | Except.error _ => (store, events)

/-! ### SSE service (`apps/api/app/services/sse_service.py`) -/

/-- Capacity of a subscriber channel: `asyncio.Queue(maxsize=100)` created by
`SSEService.subscribe`. -/
def SSE_QUEUE_MAXSIZE : Nat := 100

/-- A live subscriber channel for one recipient key: the queue created by
`SSEService.subscribe` (identified by object identity in Python, by `id`
here) together with its buffered contents. -/
structure Subscriber where
  id : Nat
  queue : List SSEEvent
deriving DecidableEq, Repr

/-- `SSEService.subscribe`: creates a fresh bounded queue and appends it to
the recipient key's subscriber list. -/
def subscribe (subs : List Subscriber) (freshId : Nat) :
    Subscriber × List Subscriber :=
  let q : Subscriber := { id := freshId, queue := [] }
  (q, subs ++ [q])

/-- One subscriber's fate under `SSEService.emit`: `queue.put` succeeds
within the 1 s `wait_for` timeout exactly when the bounded queue has room;
a queue that stays full times out, the event is dropped for it and it is
collected in `dead_queues`, hence removed by `unsubscribe` after the loop. -/
def offerEvent (ev : SSEEvent) (s : Subscriber) : Option Subscriber :=
  if s.queue.length < SSE_QUEUE_MAXSIZE then some { s with queue := s.queue ++ [ev] }
  else none

/-- `SSEService.emit` restricted to the fan-out over one recipient key's
subscriber list: every subscriber in the list is offered the event in turn
(the loop never aborts early and never waits more than the timeout on any
one queue); full queues drop the event and are unsubscribed afterwards. -/
def emit (ev : SSEEvent) (subs : List Subscriber) : List Subscriber :=
  (subs.map (offerEvent ev)).reduceOption

/-! ### Storage-error behaviour

`storageOk = false` models the document store raising during the collection
call of an operation (the store is unreachable, so no write happens).
`acquire_job` performs its `find_one_and_update` with no `try` around it, so
the exception propagates to the caller; `complete_job`, `fail_job` and
`update_progress` wrap theirs in `try ... except Exception: return None`,
so the caller sees a plain `None`. -/

/-- A service call as the Python caller sees it: a returned value, or a
raised exception. -/
inductive CallResult (α : Type) where
  | ok (a : α)
  | raised
deriving DecidableEq, Repr

/-- `acquire_job` with the storage fault model: no `try`/`except`, the
storage exception propagates. -/
def acquire_jobE (storageOk : Bool) (store : List Job) (workerId : String)
    (now : Nat) : CallResult (Option Job) × List Job :=
  if storageOk then
    let r := acquire_job store workerId now
    (CallResult.ok r.1, r.2)
  else (CallResult.raised, store)

/-- `complete_job` with the storage fault model: the collection call sits in
`try ... except Exception: return None`, so a storage error is swallowed and
surfaces as `None`. -/
def complete_jobE (storageOk : Bool) (store : List Job) (jid : Nat)
    (result resourceRefs : Option String) (now : Nat) :
    CallResult (Option Job) × List Job :=
  if storageOk then
    let r := complete_job store jid result resourceRefs now
    (CallResult.ok r.1, r.2)
  else (CallResult.ok none, store)

/-- `fail_job` with the storage fault model: the collection call sits in
`try ... except Exception: return None`, so a storage error is swallowed and
surfaces as `None`. -/
def fail_jobE (storageOk : Bool) (store : List Job) (jid : Nat) (error : String)
    (now : Nat) : CallResult (Option Job) × List Job :=
  if storageOk then
    let r := fail_job store jid error now
    (CallResult.ok r.1, r.2)
  else (CallResult.ok none, store)

/-! ### Basic lemmas about the claim filter and selection -/

theorem eligible_of_queued {now : Nat} {j : Job}
    (h : j.status = JobStatus.queued) : eligible now j = true := by
  simp [eligible, h]

theorem eligible_claimUpdate (w : String) (now : Nat) (j : Job) :
    eligible now (claimUpdate w now j) = false := by
  simp [eligible, claimUpdate, LOCK_DURATION]

theorem bestEligible_cons_none {now : Nat} {j : Job} {rest : List Job}
    (hr : bestEligible now rest = none) :
    bestEligible now (j :: rest) =
      if eligible now j = true then some j else none := by
  simp only [bestEligible, hr]

theorem bestEligible_cons_some {now : Nat} {j b : Job} {rest : List Job}
    (hr : bestEligible now rest = some b) :
    bestEligible now (j :: rest) =
      if eligible now j = true ∧ j.createdAt ≤ b.createdAt then some j else some b := by
  simp only [bestEligible, hr]

theorem bestEligible_none_iff (now : Nat) (store : List Job) :
    bestEligible now store = none ↔ ∀ j ∈ store, eligible now j = false := by
  induction store with
  | nil => simp [bestEligible]
  | cons j rest ih =>
    constructor
    · intro h
      rcases hr : bestEligible now rest with _ | b
      · rw [bestEligible_cons_none hr] at h
        have hall := ih.mp hr
        cases he : eligible now j with
        | true => rw [if_pos he] at h; cases h
        | false =>
          intro k hk
          rcases List.mem_cons.mp hk with rfl | hk
          · exact he
          · exact hall k hk
      · rw [bestEligible_cons_some hr] at h
        split at h <;> exact (Option.some_ne_none _ h).elim
    · intro hall
      have hr : bestEligible now rest = none :=
        ih.mpr fun k hk => hall k (List.mem_cons_of_mem j hk)
      have he := hall j (List.mem_cons_self j rest)
      rw [bestEligible_cons_none hr, if_neg (by simp [he])]

theorem bestEligible_mem {now : Nat} {store : List Job} {j0 : Job}
    (h : bestEligible now store = some j0) :
    j0 ∈ store ∧ eligible now j0 = true := by
  induction store generalizing j0 with
  | nil => cases h
  | cons j rest ih =>
    rcases hr : bestEligible now rest with _ | b
    · rw [bestEligible_cons_none hr] at h
      cases he : eligible now j with
      | true =>
        rw [if_pos he] at h
        injection h with h
        subst h
        exact ⟨List.mem_cons_self _ _, he⟩
      | false => rw [if_neg (by simp [he])] at h; cases h
    · rw [bestEligible_cons_some hr] at h
      by_cases hc : eligible now j = true ∧ j.createdAt ≤ b.createdAt
      · rw [if_pos hc] at h
        injection h with h
        subst h
        exact ⟨List.mem_cons_self _ _, hc.1⟩
      · rw [if_neg hc] at h
        injection h with h
        subst h
        obtain ⟨hm, he⟩ := ih hr
        exact ⟨List.mem_cons_of_mem _ hm, he⟩

theorem bestEligible_min {now : Nat} {store : List Job} {j0 : Job}
    (h : bestEligible now store = some j0) :
    ∀ j ∈ store, eligible now j = true → j0.createdAt ≤ j.createdAt := by
  induction store generalizing j0 with
  | nil => cases h
  | cons j rest ih =>
    rcases hr : bestEligible now rest with _ | b
    · rw [bestEligible_cons_none hr] at h
      have hall := (bestEligible_none_iff now rest).mp hr
      cases he : eligible now j with
      | true =>
        rw [if_pos he] at h
        injection h with h
        subst h
        intro k hk hke
        rcases List.mem_cons.mp hk with rfl | hk
        · exact le_refl _
        · rw [hall k hk] at hke; cases hke
      | false => rw [if_neg (by simp [he])] at h; cases h
    · rw [bestEligible_cons_some hr] at h
      by_cases hc : eligible now j = true ∧ j.createdAt ≤ b.createdAt
      · rw [if_pos hc] at h
        injection h with h
        subst h
        intro k hk hke
        rcases List.mem_cons.mp hk with rfl | hk
        · exact le_refl _
        · exact le_trans hc.2 (ih hr k hk hke)
      · rw [if_neg hc] at h
        injection h with h
        subst h
        intro k hk hke
        rcases List.mem_cons.mp hk with rfl | hk
        · have hgt : ¬ k.createdAt ≤ b.createdAt := fun hle => hc ⟨hke, hle⟩
          exact le_of_not_le hgt
        · exact ih hr k hk hke

theorem bestEligible_unique {now : Nat} {store : List Job} {j0 : Job}
    (hmem : j0 ∈ store) (helig : eligible now j0 = true)
    (huniq : ∀ j ∈ store, eligible now j = true → j = j0) :
    bestEligible now store = some j0 := by
  induction store with
  | nil => cases hmem
  | cons j rest ih =>
    by_cases hjr : ∃ k ∈ rest, eligible now k = true
    · have hj0rest : j0 ∈ rest := by
        obtain ⟨k, hk, hke⟩ := hjr
        have hk0 := huniq k (List.mem_cons_of_mem j hk) hke
        rwa [hk0] at hk
      have hrest : bestEligible now rest = some j0 :=
        ih hj0rest (fun q hq hqe => huniq q (List.mem_cons_of_mem j hq) hqe)
      rw [bestEligible_cons_some hrest]
      cases he : eligible now j with
      | true =>
        have hj : j = j0 := huniq j (List.mem_cons_self j rest) he
        rw [if_pos ⟨rfl, le_of_eq (congrArg Job.createdAt hj)⟩, hj]
      | false =>
        rw [if_neg (by simp [he])]
    · have hrest : bestEligible now rest = none := by
        rw [bestEligible_none_iff]
        intro k hk
        by_contra hne
        exact hjr ⟨k, hk, by simpa using hne⟩
      rw [bestEligible_cons_none hrest]
      have hj : j = j0 := by
        rcases List.mem_cons.mp hmem with h0 | hm
        · exact h0.symm
        · exact absurd ⟨j0, hm, helig⟩ hjr
      rw [hj, if_pos helig]

theorem mem_setJob {store : List Job} {jid : Nat} {f : Job → Job} {k : Job}
    (hk : k ∈ setJob store jid f) :
    ∃ j ∈ store, k = if j.id = jid then f j else j := by
  simp only [setJob, List.mem_map] at hk
  obtain ⟨j, hj, hjk⟩ := hk
  exact ⟨j, hj, hjk.symm⟩

/-! ### Concrete documents for witnesses and counterexamples -/

/-- A concrete queued job. -/
def cQueuedJob : Job :=
  { id := 1, userId := none, jobType := JobType.match_recompute
    status := JobStatus.queued, progress := 0, message := none, error := none
    resourceRefs := none, createdAt := 0, startedAt := none, finishedAt := none
    workerId := none, lockExpiresAt := none, result := none }

/-- A concrete running job owned by worker `"w2"`. -/
def cRunningJob : Job :=
  { id := 1, userId := none, jobType := JobType.match_recompute
    status := JobStatus.running, progress := 40, message := none, error := none
    resourceRefs := none, createdAt := 0, startedAt := some 5, finishedAt := none
    workerId := some "w2", lockExpiresAt := some 305, result := none }

/-- A concrete succeeded job (as produced by `complete_job`). -/
def cDoneJob : Job :=
  { id := 1, userId := none, jobType := JobType.match_recompute
    status := JobStatus.succeeded, progress := 100, message := none, error := none
    resourceRefs := none, createdAt := 0, startedAt := some 5, finishedAt := some 9
    workerId := none, lockExpiresAt := none, result := some "r" }

/-! ### C1: at most one active claim -/

/-- Claim C1: at-most-one-active-claim.  In a store whose only eligible job
is the queued job `j0`, of two `acquire_job` calls with distinct worker ids
the first returns `j0` claimed as running under its own worker id, and the
second (against the resulting store, while the first claim's lock is fresh)
returns `none`. -/
theorem claim_at_most_one (store : List Job) (w1 w2 : String) (now : Nat) (j0 : Job)
    (hw : w1 ≠ w2) (hmem : j0 ∈ store) (hq : j0.status = JobStatus.queued)
    (huniq : ∀ j ∈ store, eligible now j = true → j = j0) :
    (acquire_job store w1 now).1 = some (claimUpdate w1 now j0) ∧
    (claimUpdate w1 now j0).status = JobStatus.running ∧
    (claimUpdate w1 now j0).workerId = some w1 ∧
    (acquire_job (acquire_job store w1 now).2 w2 now).1 = none := by
  have hb : bestEligible now store = some j0 :=
    bestEligible_unique hmem (eligible_of_queued hq) huniq
  have h1 : acquire_job store w1 now =
      (some (claimUpdate w1 now j0), setJob store j0.id (claimUpdate w1 now)) := by
    simp [acquire_job, hb]
  refine ⟨by rw [h1], rfl, rfl, ?_⟩
  rw [h1]
  have hnone : bestEligible now (setJob store j0.id (claimUpdate w1 now)) = none := by
    rw [bestEligible_none_iff]
    intro k hk
    obtain ⟨j, hj, hkj⟩ := mem_setJob hk
    by_cases hid : j.id = j0.id
    · rw [if_pos hid] at hkj
      rw [hkj]
      exact eligible_claimUpdate w1 now j
    · rw [if_neg hid] at hkj
      subst hkj
      by_contra hne
      have hj0 : k = j0 := huniq k hj (by simpa using hne)
      exact hid (by rw [hj0])
  simp [acquire_job, hnone]

/-- Concrete run of `claim_at_most_one` on a one-job store. -/
theorem claim_at_most_one_witness :
    (acquire_job [cQueuedJob] "w1" 7).1 = some (claimUpdate "w1" 7 cQueuedJob) ∧
    (claimUpdate "w1" 7 cQueuedJob).status = JobStatus.running ∧
    (claimUpdate "w1" 7 cQueuedJob).workerId = some "w1" ∧
    (acquire_job (acquire_job [cQueuedJob] "w1" 7).2 "w2" 7).1 = none :=
  claim_at_most_one [cQueuedJob] "w1" "w2" 7 cQueuedJob (by decide)
    (List.mem_singleton.mpr rfl) rfl
    (fun j hj _ => List.mem_singleton.mp hj)

/-! ### C2: postcondition of claim -/

/-- Claim C2: `acquire_job` selects the oldest (FIFO by `created_at`)
eligible job — `queued`, or `running` with an expired lock, which is thereby
reclaimable — and in one atomic step sets `status=running`,
`worker_id` to the caller, `started_at=now` and
`lock_expires_at = now + LOCK_DURATION`; with no eligible job it returns
`none` and leaves the store unchanged. -/
theorem claim_postcondition (store : List Job) (w : String) (now : Nat) :
    (∀ j ∈ store, j.status = JobStatus.running →
      ∀ t, j.lockExpiresAt = some t → t < now → eligible now j = true) ∧
    LOCK_DURATION = 300 ∧
    match acquire_job store w now with
    | (none, s) => s = store ∧ ∀ j ∈ store, eligible now j = false
    | (some jr, s) =>
      ∃ j0, j0 ∈ store ∧ eligible now j0 = true ∧
        (∀ j ∈ store, eligible now j = true → j0.createdAt ≤ j.createdAt) ∧
        jr = claimUpdate w now j0 ∧
        jr.status = JobStatus.running ∧ jr.workerId = some w ∧
        jr.startedAt = some now ∧
        jr.lockExpiresAt = some (now + LOCK_DURATION) ∧
        s = setJob store j0.id (claimUpdate w now) := by
  refine ⟨?_, rfl, ?_⟩
  · intro j _ hrun t hlock hlt
    simp [eligible, hrun, hlock, hlt]
  · rcases hb : bestEligible now store with _ | j0
    · have hacq : acquire_job store w now = (none, store) := by
        simp [acquire_job, hb]
      rw [hacq]
      exact ⟨rfl, (bestEligible_none_iff now store).mp hb⟩
    · have hacq : acquire_job store w now =
          (some (claimUpdate w now j0), setJob store j0.id (claimUpdate w now)) := by
        simp [acquire_job, hb]
      rw [hacq]
      obtain ⟨hmem, helig⟩ := bestEligible_mem hb
      exact ⟨j0, hmem, helig, bestEligible_min hb, rfl, rfl, rfl, rfl, rfl, rfl⟩

/-! ### Helper lemmas on the store operations -/

theorem eligible_status {now : Nat} {j : Job} (h : eligible now j = true) :
    j.status = JobStatus.queued ∨ j.status = JobStatus.running := by
  cases hs : j.status with
  | queued => exact Or.inl rfl
  | running => exact Or.inr rfl
  | succeeded => simp [eligible, hs] at h
  | failed => simp [eligible, hs] at h

theorem find?_id_isSome {store : List Job} {jid : Nat} {j : Job}
    (hmem : j ∈ store) (hid : j.id = jid) :
    (store.find? fun k => k.id = jid).isSome = true := by
  rw [List.find?_isSome]
  exact ⟨j, hmem, by simp [hid]⟩

theorem setJob_mem {store : List Job} {jid : Nat} {f : Job → Job} {j : Job}
    (hmem : j ∈ store) (hid : j.id = jid) : f j ∈ setJob store jid f := by
  simp only [setJob, List.mem_map]
  exact ⟨j, hmem, by rw [if_pos hid]⟩

theorem setJob_mem_of_ne {store : List Job} {jid : Nat} {f : Job → Job} {j : Job}
    (hmem : j ∈ store) (hid : ¬j.id = jid) : j ∈ setJob store jid f := by
  simp only [setJob, List.mem_map]
  exact ⟨j, hmem, by rw [if_neg hid]⟩

theorem update_progress_store_eq (store : List Job) (jid : Nat) (p : Int)
    (msg : Option String) :
    (update_progress store jid p msg).2 =
      if (store.find? fun k => k.id = jid).isSome
      then setJob store jid (progressUpdate p msg) else store := by
  by_cases hf : (store.find? fun k => k.id = jid).isSome = true
  · simp only [update_progress, if_pos hf]
    rcases h1 : (setJob store jid (progressUpdate p msg)).find? fun k => k.id = jid
      with _ | j1
    · simp [h1]
    · simp only [h1]
      split <;> rfl
  · simp only [update_progress, if_neg hf]

theorem complete_job_store_eq (store : List Job) (jid : Nat)
    (r rr : Option String) (now : Nat) :
    (complete_job store jid r rr now).2 =
      if (store.find? fun k => k.id = jid).isSome
      then setJob store jid (completeUpdate r rr now) else store := by
  by_cases hf : (store.find? fun k => k.id = jid).isSome = true <;>
    simp [complete_job, hf]

theorem fail_job_store_eq (store : List Job) (jid : Nat) (e : String) (now : Nat) :
    (fail_job store jid e now).2 =
      if (store.find? fun k => k.id = jid).isSome
      then setJob store jid (failUpdate e now) else store := by
  by_cases hf : (store.find? fun k => k.id = jid).isSome = true <;>
    simp [fail_job, hf]

theorem map_status_setJob {store : List Job} {jid : Nat} {f : Job → Job}
    (hf : ∀ j, (f j).status = j.status) :
    (setJob store jid f).map Job.status = store.map Job.status := by
  simp only [setJob, List.map_map]
  refine List.map_congr_left ?_
  intro j _
  by_cases h : j.id = jid
  · simp [h, hf]
  · simp [h]

/-! ### C3: terminal-state immutability -/

/-- Counterexample to claim C3: `fail_job` on a store holding one succeeded
job mutates the record — its status flips to `failed`, so a terminal job is
not immutable. -/
theorem terminal_not_immutable_cex :
    cDoneJob.status = JobStatus.succeeded ∧
    (fail_job [cDoneJob] 1 "late straggler" 42).2.map Job.status =
      [JobStatus.failed] ∧
    (fail_job [cDoneJob] 1 "late straggler" 42).2 ≠ [cDoneJob] := by
  decide

/-- Claim C3 (amended): `acquire_job` never touches a terminal job (its
filter admits only `queued` or lock-expired `running` jobs), and
`update_progress` never changes any status; `complete_job` and `fail_job`
only ever move the matched job into their respective terminal state — but
they are not guarded by the current status, so a terminal job can still be
rewritten to the other terminal state. -/
theorem status_transitions (store : List Job) (w : String) (now jid : Nat)
    (p : Int) (msg : Option String) (r rr : Option String) (e : String)
    (hids : (store.map Job.id).Nodup) :
    ((update_progress store jid p msg).2.map Job.status = store.map Job.status) ∧
    (∀ j ∈ store, j.status = JobStatus.succeeded ∨ j.status = JobStatus.failed →
        j ∈ (acquire_job store w now).2) ∧
    (∀ k ∈ (complete_job store jid r rr now).2,
        k.status = JobStatus.succeeded ∨ k ∈ store) ∧
    (∀ k ∈ (fail_job store jid e now).2,
        k.status = JobStatus.failed ∨ k ∈ store) := by
  refine ⟨?_, ?_, ?_, ?_⟩
  · rw [update_progress_store_eq]
    by_cases hf : (store.find? fun k => k.id = jid).isSome = true
    · rw [if_pos hf]
      exact map_status_setJob (fun j => rfl)
    · rw [if_neg hf]
  · intro j hj hterm
    rcases hb : bestEligible now store with _ | j0
    · have hacq : acquire_job store w now = (none, store) := by
        simp [acquire_job, hb]
      rw [hacq]
      exact hj
    · have hacq : (acquire_job store w now).2 =
          setJob store j0.id (claimUpdate w now) := by
        simp [acquire_job, hb]
      rw [hacq]
      obtain ⟨hmem0, helig0⟩ := bestEligible_mem hb
      have hne : ¬j.id = j0.id := by
        intro hid
        have hjj0 : j = j0 :=
          List.inj_on_of_nodup_map hids hj hmem0 hid
        rcases eligible_status helig0 with hs | hs <;>
          rcases hterm with ht | ht <;> rw [hjj0, hs] at ht <;> cases ht
      exact setJob_mem_of_ne hj hne
  · intro k hk
    rw [complete_job_store_eq] at hk
    by_cases hf : (store.find? fun q => q.id = jid).isSome = true
    · rw [if_pos hf] at hk
      obtain ⟨j, hj, hkj⟩ := mem_setJob hk
      by_cases hid : j.id = jid
      · rw [if_pos hid] at hkj
        exact Or.inl (by rw [hkj]; rfl)
      · rw [if_neg hid] at hkj
        exact Or.inr (hkj ▸ hj)
    · rw [if_neg hf] at hk
      exact Or.inr hk
  · intro k hk
    rw [fail_job_store_eq] at hk
    by_cases hf : (store.find? fun q => q.id = jid).isSome = true
    · rw [if_pos hf] at hk
      obtain ⟨j, hj, hkj⟩ := mem_setJob hk
      by_cases hid : j.id = jid
      · rw [if_pos hid] at hkj
        exact Or.inl (by rw [hkj]; rfl)
      · rw [if_neg hid] at hkj
        exact Or.inr (hkj ▸ hj)
    · rw [if_neg hf] at hk
      exact Or.inr hk

/-- Concrete run of `status_transitions`: a stored running job keeps its
status through `update_progress`. -/
theorem status_transitions_witness :
    ((update_progress [cRunningJob] 1 50 none).2.map Job.status =
      [JobStatus.running]) := by
  have h := status_transitions [cRunningJob] "w1" 7 1 50 none none none "boom"
    (by decide)
  rw [h.1]
  decide

/-! ### C4: ownership-lost calls -/

/-- Counterexample to claim C4: the job is owned by worker `"w2"` (the
original owner `"w1"` has lost it), yet a `fail_job` call issued on the
stale worker's behalf still rewrites the record — the stale result is not
discarded. -/
theorem ownership_lost_not_noop_cex :
    cRunningJob.workerId = some "w2" ∧
    (fail_job [cRunningJob] 1 "stale w1 error" 400).2 ≠ [cRunningJob] ∧
    (fail_job [cRunningJob] 1 "stale w1 error" 400).2.map Job.status =
      [JobStatus.failed] ∧
    ((update_progress [cRunningJob] 1 10 none).2.map Job.progress = [10]) := by
  decide

/-- Claim C4 (amended): `update_progress`, `complete_job` and `fail_job`
take no worker identity and perform no ownership check — they match the job
by id alone, so a stale worker's terminal write overwrites the job now owned
by another worker; only `renew_lock` verifies ownership, returning `none`
and leaving the store unchanged when the caller no longer owns the job. -/
theorem ownership_checked_only_by_renew_lock (store : List Job) (jid : Nat)
    (w1 w2 : String) (e : String) (now : Nat) (j : Job)
    (hmem : j ∈ store) (hid : j.id = jid) (hown : j.workerId = some w2)
    (hw : w1 ≠ w2) (hids : (store.map Job.id).Nodup) :
    failUpdate e now j ∈ (fail_job store jid e now).2 ∧
    (failUpdate e now j).status = JobStatus.failed ∧
    (failUpdate e now j).workerId = none ∧
    renew_lock store jid w1 now = (none, store) := by
  refine ⟨?_, rfl, rfl, ?_⟩
  · rw [fail_job_store_eq, if_pos (find?_id_isSome hmem hid)]
    exact setJob_mem hmem hid
  · have hf : (store.find? fun k =>
        k.id = jid && k.workerId = some w1 && k.status = JobStatus.running) = none := by
      rw [List.find?_eq_none]
      intro q hq hcon
      simp only [Bool.and_eq_true, decide_eq_true_eq] at hcon
      have hqj : q = j :=
        List.inj_on_of_nodup_map hids hq hmem (by rw [hcon.1.1, hid])
      rw [hqj, hown] at hcon
      exact hw (by injection hcon.1.2 with hvv; exact hvv.symm)
    simp [renew_lock, hf]

/-- Concrete run of `ownership_checked_only_by_renew_lock` on a job owned by
`"w2"` with stale caller `"w1"`. -/
theorem ownership_checked_only_by_renew_lock_witness :
    failUpdate "boom" 400 cRunningJob ∈ (fail_job [cRunningJob] 1 "boom" 400).2 ∧
    (failUpdate "boom" 400 cRunningJob).status = JobStatus.failed ∧
    (failUpdate "boom" 400 cRunningJob).workerId = none ∧
    renew_lock [cRunningJob] 1 "w1" 400 = (none, [cRunningJob]) :=
  ownership_checked_only_by_renew_lock [cRunningJob] 1 "w1" "w2" "boom" 400
    cRunningJob (by decide) rfl rfl (by decide) (by decide)

/-! ### C5: storage-error propagation -/

/-- Counterexample to claim C5: a storage error during `complete_job` (and
during `fail_job`) does NOT propagate — the `except Exception: return None`
swallows it and the caller sees `None`, indistinguishable from a missing
job. -/
theorem storage_error_swallowed_cex :
    complete_jobE false [cRunningJob] 1 (some "r") none 9 =
      (CallResult.ok none, [cRunningJob]) ∧
    fail_jobE false [cRunningJob] 1 "e" 9 =
      (CallResult.ok none, [cRunningJob]) := by
  exact ⟨rfl, rfl⟩

/-- Claim C5 (amended): a storage error during `acquire_job` propagates to
the caller (there is no `try` around its collection call), but storage
errors during `complete_job` and `fail_job` are caught and mapped to a
`None` result; in every case the job store is left in its prior state. -/
theorem storage_error_semantics (store : List Job) (w : String) (jid now : Nat)
    (r rr : Option String) (e : String) :
    acquire_jobE false store w now = (CallResult.raised, store) ∧
    complete_jobE false store jid r rr now = (CallResult.ok none, store) ∧
    fail_jobE false store jid e now = (CallResult.ok none, store) :=
  ⟨rfl, rfl, rfl⟩

/-! ### C6: progress 100 iff succeeded -/

/-- Counterexample to claim C6: `update_progress(id, 100)` on a running job
stores progress 100 and returns normally while the status stays `running`,
so `progress == 100` does not imply `status == succeeded`. -/
theorem progress_100_without_succeeded_cex :
    (update_progress [cRunningJob] 1 100 none).1 =
      Except.ok (some { cRunningJob with progress := 100 }) ∧
    (update_progress [cRunningJob] 1 100 none).2.map
      (fun j => (j.progress, j.status)) = [(100, JobStatus.running)] := by
  exact ⟨rfl, by decide⟩

/-- Claim C6 (amended): the forward direction holds — `complete_job` sets
`progress = 100` together with `status = succeeded` on every job it
returns — but the converse fails, since `update_progress` can store 100
while the job is still running (and `fail_job` does not touch progress). -/
theorem complete_job_sets_100 (store : List Job) (jid : Nat)
    (r rr : Option String) (now : Nat) (j1 : Job)
    (h : (complete_job store jid r rr now).1 = some j1) :
    j1.status = JobStatus.succeeded ∧ j1.progress = 100 := by
  by_cases hf : (store.find? fun k => k.id = jid).isSome = true
  · simp only [complete_job, if_pos hf] at h
    have hmem := List.mem_of_find?_eq_some h
    obtain ⟨j, _, hkj⟩ := mem_setJob hmem
    have hpred := List.find?_some h
    by_cases hid : j.id = jid
    · rw [if_pos hid] at hkj
      rw [hkj]
      exact ⟨rfl, rfl⟩
    · rw [if_neg hid] at hkj
      rw [hkj] at hpred
      exact absurd (of_decide_eq_true hpred) hid
  · simp only [complete_job, if_neg hf] at h
    cases h

/-- Concrete run of `complete_job_sets_100`. -/
theorem complete_job_sets_100_witness :
    (complete_job [cRunningJob] 1 (some "r") none 9).1 =
      some { cRunningJob with
             status := JobStatus.succeeded
             progress := 100
             finishedAt := some 9
             workerId := none
             lockExpiresAt := none
             result := some "r" } ∧
    JobStatus.succeeded = JobStatus.succeeded ∧ (100 : Int) = 100 := by
  have h : (complete_job [cRunningJob] 1 (some "r") none 9).1 =
      some { cRunningJob with
             status := JobStatus.succeeded
             progress := 100
             finishedAt := some 9
             workerId := none
             lockExpiresAt := none
             result := some "r" } := by decide
  have hc := complete_job_sets_100 [cRunningJob] 1 (some "r") none 9 _ h
  exact ⟨h, hc.1 ▸ rfl, rfl⟩

/-! ### C7: progress monotonicity -/

/-- Counterexample to claim C7: two successive `update_progress` calls with
values 50 then 20 leave the stored progress at 20 — it decreased. -/
theorem progress_not_monotone_cex :
    ((update_progress [cRunningJob] 1 50 none).2.map Job.progress = [50]) ∧
    ((update_progress (update_progress [cRunningJob] 1 50 none).2
        1 20 none).2.map Job.progress = [20]) := by
  decide

/-- Claim C7 (amended): `update_progress` stores exactly the supplied value
with no monotonicity guard — after a call the matched job's stored progress
equals the argument, whatever was stored before, so a lower second argument
decreases it. -/
theorem update_progress_stores_argument (store : List Job) (jid : Nat)
    (p : Int) (msg : Option String) (j : Job)
    (hmem : j ∈ store) (hid : j.id = jid) :
    progressUpdate p msg j ∈ (update_progress store jid p msg).2 ∧
    (progressUpdate p msg j).progress = p := by
  refine ⟨?_, rfl⟩
  rw [update_progress_store_eq, if_pos (find?_id_isSome hmem hid)]
  exact setJob_mem hmem hid

/-- Concrete run of `update_progress_stores_argument`: the stored value is
the argument 20, below the previously stored 40. -/
theorem update_progress_stores_argument_witness :
    progressUpdate 20 none cRunningJob ∈ (update_progress [cRunningJob] 1 20 none).2 ∧
    (progressUpdate 20 none cRunningJob).progress = 20 :=
  update_progress_stores_argument [cRunningJob] 1 20 none cRunningJob
    (by decide) rfl

/-! ### C8: worker-loop fault tolerance -/

/-- Claim C8: when a claimed job's executor dispatch errors — a raised
handler exception or a missing handler (whose error message is the
unretried `noHandlerMsg`) — the poll iteration calls `fail_job` with the
string description, appends a `job.failed` event after the initial progress
event, and the exception never escapes: `poll_body` returns `Except.ok`, so
`poll_and_execute` completes normally and the job with the claimed id ends
up `failed` with that error recorded. -/
theorem worker_loop_fault_tolerance
    (handlers : JobType → Option (Job → ExecOutcome)) (store : List Job)
    (events : List SSEEvent) (w : String) (now : Nat) (j : Job) (s : List Job)
    (e : String)
    (hacq : acquire_job store w now = (some j, s))
    (hrun : run_executor handlers j = Except.error e) :
    poll_body handlers store events w now =
      Except.ok ((fail_job s j.id e now).2,
        (events ++ [{ eventType := EventType.job_progress, jobId := j.id
                      error := none, userId := j.userId }]) ++
          [{ eventType := EventType.job_failed, jobId := j.id
             error := some e, userId := j.userId }]) ∧
    poll_and_execute handlers store events w now =
      ((fail_job s j.id e now).2,
        (events ++ [{ eventType := EventType.job_progress, jobId := j.id
                      error := none, userId := j.userId }]) ++
          [{ eventType := EventType.job_failed, jobId := j.id
             error := some e, userId := j.userId }]) ∧
    (handlers j.jobType = none → e = noHandlerMsg j.jobType) ∧
    (∀ k ∈ (fail_job s j.id e now).2, k.id = j.id →
       k.status = JobStatus.failed ∧ k.error = some e) := by
  have hbody : poll_body handlers store events w now =
      Except.ok ((fail_job s j.id e now).2,
        (events ++ [{ eventType := EventType.job_progress, jobId := j.id
                      error := none, userId := j.userId }]) ++
          [{ eventType := EventType.job_failed, jobId := j.id
             error := some e, userId := j.userId }]) := by
    simp only [poll_body, hacq, hrun]
  refine ⟨hbody, ?_, ?_, ?_⟩
  · simp only [poll_and_execute, hbody]
  · intro hnone
    simp only [run_executor, hnone] at hrun
    injection hrun with h
    exact h.symm
  · intro k hk hkid
    rw [fail_job_store_eq] at hk
    by_cases hf : (s.find? fun q => q.id = j.id).isSome = true
    · rw [if_pos hf] at hk
      obtain ⟨m, hm, hkm⟩ := mem_setJob hk
      by_cases hid : m.id = j.id
      · rw [if_pos hid] at hkm
        rw [hkm]
        exact ⟨rfl, rfl⟩
      · rw [if_neg hid] at hkm
        rw [hkm] at hkid
        exact absurd hkid hid
    · rw [if_neg hf] at hk
      have hn : (s.find? fun q => q.id = j.id) = none := by
        cases hn2 : s.find? fun q => q.id = j.id with
        | none => rfl
        | some m => rw [hn2] at hf; simp at hf
      rw [List.find?_eq_none] at hn
      exact absurd (by simp [hkid]) (hn k hk)

/-- Concrete run of `worker_loop_fault_tolerance`: one queued job, an empty
handler registry — the job is claimed, fails with the no-handler message,
and the loop completes with a `job.failed` event. -/
theorem worker_loop_fault_tolerance_witness :
    (poll_and_execute (fun _ => none) [cQueuedJob] [] "w1" 7).1.map
        (fun k => (k.status, k.error)) =
      [(JobStatus.failed, some (noHandlerMsg JobType.match_recompute))] ∧
    (poll_and_execute (fun _ => none) [cQueuedJob] [] "w1" 7).2.map
        SSEEvent.eventType = [EventType.job_progress, EventType.job_failed] := by
  have h := worker_loop_fault_tolerance (fun _ => none) [cQueuedJob] [] "w1" 7
    (claimUpdate "w1" 7 cQueuedJob) [claimUpdate "w1" 7 cQueuedJob]
    (noHandlerMsg JobType.match_recompute) (by decide) rfl
  rw [h.2.1]
  constructor <;> decide

/-! ### C9: slow-subscriber backpressure -/

/-- Claim C9: under `emit` on one recipient key's subscriber list, a
subscriber whose bounded channel (capacity `SSE_QUEUE_MAXSIZE = 100`) stays
full has the event dropped and is evicted — no subscriber with its channel
survives — while every subscriber with room is still offered and receives
the event; `emit` processes the whole list, never parking on one stalled
consumer. -/
theorem offerEvent_full {ev : SSEEvent} {s : Subscriber}
    (h : ¬s.queue.length < SSE_QUEUE_MAXSIZE) : offerEvent ev s = none := by
  simp only [offerEvent, if_neg h]

theorem offerEvent_room {ev : SSEEvent} {s : Subscriber}
    (h : s.queue.length < SSE_QUEUE_MAXSIZE) :
    offerEvent ev s = some { s with queue := s.queue ++ [ev] } := by
  simp only [offerEvent, if_pos h]

theorem sse_backpressure (subs : List Subscriber) (ev : SSEEvent)
    (s : Subscriber) (hmem : s ∈ subs)
    (hids : (subs.map Subscriber.id).Nodup) :
    SSE_QUEUE_MAXSIZE = 100 ∧
    (s.queue.length ≥ SSE_QUEUE_MAXSIZE →
      ∀ s1 ∈ emit ev subs, s1.id ≠ s.id) ∧
    (s.queue.length < SSE_QUEUE_MAXSIZE →
      { s with queue := s.queue ++ [ev] } ∈ emit ev subs) := by
  refine ⟨rfl, ?_, ?_⟩
  · intro hfull s1 hs1 hid
    simp only [emit, List.reduceOption_mem_iff, List.mem_map] at hs1
    obtain ⟨x, hx, hoffer⟩ := hs1
    have hxid : x.id = s1.id := by
      by_cases hlen : x.queue.length < SSE_QUEUE_MAXSIZE
      · rw [offerEvent_room hlen] at hoffer
        injection hoffer with h1
        rw [← h1]
      · rw [offerEvent_full hlen] at hoffer
        cases hoffer
    have hxs : x = s :=
      List.inj_on_of_nodup_map hids hx hmem (by rw [hxid, hid])
    have hncond : ¬s.queue.length < SSE_QUEUE_MAXSIZE := by omega
    rw [hxs, offerEvent_full hncond] at hoffer
    cases hoffer
  · intro hroom
    simp only [emit, List.reduceOption_mem_iff, List.mem_map]
    exact ⟨s, hmem, offerEvent_room hroom⟩

/-- A concrete event for the backpressure witness. -/
def cEv : SSEEvent :=
  { eventType := EventType.job_progress, jobId := 1, error := none, userId := none }

/-- A subscriber whose channel is full (100 buffered events). -/
def cFullSub : Subscriber := { id := 1, queue := List.replicate 100 cEv }

/-- A subscriber with an empty channel. -/
def cEmptySub : Subscriber := { id := 2, queue := [] }

/-- Concrete run of `sse_backpressure`: the full subscriber is evicted, the
one with room receives the event. -/
theorem sse_backpressure_witness :
    (∀ s1 ∈ emit cEv [cFullSub, cEmptySub], s1.id ≠ cFullSub.id) ∧
    ({ cEmptySub with queue := [cEv] } ∈ emit cEv [cFullSub, cEmptySub]) := by
  have h1 := sse_backpressure [cFullSub, cEmptySub] cEv cFullSub
    (by decide) (by decide)
  have h2 := sse_backpressure [cFullSub, cEmptySub] cEv cEmptySub
    (by decide) (by decide)
  exact ⟨h1.2.1 (by decide), h2.2.2 (by decide)⟩

/-! ### C10: update_progress writes before validating -/

/-- Claim C10: for an out-of-range progress value, `update_progress` first
writes the raw value into the stored job record, then raises the pydantic
validation error while building the returned `BackgroundJobInDB` — the call
errors, yet the store is left mutated with the out-of-range progress. -/
theorem update_progress_unvalidated_write (store : List Job) (jid : Nat)
    (p : Int) (msg : Option String) (j : Job)
    (hmem : j ∈ store) (hid : j.id = jid) (hrange : ¬(0 ≤ p ∧ p ≤ 100)) :
    (update_progress store jid p msg).1 = Except.error () ∧
    progressUpdate p msg j ∈ (update_progress store jid p msg).2 ∧
    (progressUpdate p msg j).progress = p := by
  have hf := find?_id_isSome hmem hid
  refine ⟨?_, ?_, rfl⟩
  · simp only [update_progress, if_pos hf]
    have hf1 : ((setJob store jid (progressUpdate p msg)).find? fun k =>
        k.id = jid).isSome = true :=
      find?_id_isSome (setJob_mem hmem hid) hid
    rcases h1 : (setJob store jid (progressUpdate p msg)).find? fun k => k.id = jid
      with _ | j1
    · rw [h1] at hf1; cases hf1
    · simp only [h1, if_neg hrange]
  · rw [update_progress_store_eq, if_pos hf]
    exact setJob_mem hmem hid

/-- Concrete run of `update_progress_unvalidated_write` at progress 150: the
call raises, the store now holds progress 150 in a `running` job. -/
theorem update_progress_unvalidated_write_witness :
    (update_progress [cRunningJob] 1 150 none).1 = Except.error () ∧
    progressUpdate 150 none cRunningJob ∈ (update_progress [cRunningJob] 1 150 none).2 ∧
    (progressUpdate 150 none cRunningJob).progress = 150 :=
  update_progress_unvalidated_write [cRunningJob] 1 150 none cRunningJob
    (by decide) rfl (by decide)

end Jobly
